import Mathlib

/-!
Verification of the `subprocess-pipeline` library (`src/lib.rs`).

The library builds a chain of OS processes connected by pipes
(`CommandPipeline`), spawns them left to right with rollback on failure
(`CommandPipeline::spawn`), and offers `join` / `join_with_output` with an
optional pipefail status-aggregation rule, plus an abandonment policy
(`OnDrop`) run by `Drop` when the running `Pipeline` is released unjoined.

The embedding is a shallow one.  The operating system is abstracted by a
`World` oracle that predetermines, for every program id, whether spawning it
fails, and, for every process id, the outcome of `wait`, of `kill`, and the
bytes the process writes to its piped stdout / stderr.  Every operation of
the library is a pure Lean function of the `World`; operations additionally
return the list of externally visible OS events (spawn, wait, kill) they
perform, in order, so that claims about reaping and double-waiting can be
stated about traces.
-/

namespace SubprocessPipeline

/-- Exit status of a finished process, identified by its raw code. -/
structure ExitStatus where
  code : Nat
deriving DecidableEq, Repr

/-- `ExitStatus::success`: the status-specific success predicate (code 0). -/
def ExitStatus.success (s : ExitStatus) : Bool := s.code == 0

/-- An OS-level I/O error (`std::io::Error`), identified by an error number. -/
structure IOErr where
  errno : Nat
deriving DecidableEq, Repr

deriving instance DecidableEq for Except

/-- The result of an OS `wait` call: an I/O error or an exit status. -/
abbrev WaitResult := Except IOErr ExitStatus

/-- `std::process::Output`: exit status plus captured stdout / stderr bytes. -/
structure Output where
  status : ExitStatus
  stdout : List Nat
  stderr : List Nat
deriving DecidableEq, Repr

/-- The abandonment policy (`enum OnDrop`). -/
inductive OnDrop where
  | forget
  | wait
  | kill
deriving DecidableEq, Repr

/-- A `Stdio` configuration value for one standard stream of a command:
inherit the parent stream, the null device, a fresh pipe to the parent, or a
previously obtained pipe endpoint (`ChildStdout` converted into `Stdio`). -/
inductive StdioCfg where
  | inherit
  | null
  | piped
  | fromHandle (h : Nat)
deriving DecidableEq, Repr

/-- A `std::process::Command`: the program (identified by a number, which is
what the spawn oracle keys on) and the three stream configurations; `none`
means the stream was never configured (the OS default applies).  Arguments,
environment edits and working directory play no role in the claims and are
omitted: they are forwarded verbatim to the OS primitive. -/
structure Command where
  prog : Nat
  stdinCfg : Option StdioCfg
  stdoutCfg : Option StdioCfg
  stderrCfg : Option StdioCfg
deriving DecidableEq, Repr

/-- `Command::new`: a command with no stream configured. -/
def Command.new (prog : Nat) : Command :=
  { prog := prog, stdinCfg := none, stdoutCfg := none, stderrCfg := none }

/-- A spawned process (`std::process::Child`): its pid, the three optional
pipe endpoints the OS granted at spawn (takeable, as in Rust), the command
configuration it was spawned from, and ghost copies `gIn`/`gOut`/`gErr` of
the granted endpoints that are never taken, used only to state theorems. -/
structure Child where
  pid : Nat
  stdinHandle : Option Nat
  stdoutHandle : Option Nat
  stderrHandle : Option Nat
  spawnedWith : Command
  gIn : Option Nat
  gOut : Option Nat
  gErr : Option Nat
deriving DecidableEq, Repr

/-- The OS oracle: spawn outcome per program id, wait and kill outcomes per
pid, and the bytes each process writes into its piped stdout / stderr. -/
structure World where
  spawnErr : Nat → Option IOErr
  waitResult : Nat → WaitResult
  killResult : Nat → Except IOErr Unit
  outBytes : Nat → List Nat
  errBytes : Nat → List Nat

/-- Allocation state of the OS: next fresh pid and next fresh pipe handle. -/
structure OsState where
  nextPid : Nat
  nextHandle : Nat
deriving DecidableEq, Repr

/-- Externally visible OS events, in the order the library performs them. -/
inductive Event where
  | spawned (pid : Nat)
  | waited (pid : Nat)
  | killed (pid : Nat)
deriving DecidableEq, Repr

/-- One stream of a freshly spawned child: the OS grants a pipe endpoint
exactly when the stream was configured as `piped`. -/
def grantOpt (cfg : Option StdioCfg) (h : Nat) : Option Nat :=
  if cfg = some StdioCfg.piped then some h else none

/-- The next fresh handle after possibly granting one for this stream. -/
def grantNext (cfg : Option StdioCfg) (h : Nat) : Nat :=
  if cfg = some StdioCfg.piped then h + 1 else h

/-- The OS process-creation primitive: fails as the oracle dictates for the
command's program, otherwise returns a child with a fresh pid and pipe
endpoints for each `piped` stream. -/
def osSpawn (w : World) (st : OsState) (c : Command) :
    OsState × Except IOErr Child :=
  match w.spawnErr c.prog with
  | some e => (st, Except.error e)
  | none =>
      let n1 := grantNext c.stdinCfg st.nextHandle
      let n2 := grantNext c.stdoutCfg n1
      ({ nextPid := st.nextPid + 1, nextHandle := grantNext c.stderrCfg n2 },
       Except.ok { pid := st.nextPid,
                   stdinHandle := grantOpt c.stdinCfg st.nextHandle,
                   stdoutHandle := grantOpt c.stdoutCfg n1,
                   stderrHandle := grantOpt c.stderrCfg n2,
                   spawnedWith := c,
                   gIn := grantOpt c.stdinCfg st.nextHandle,
                   gOut := grantOpt c.stdoutCfg n1,
                   gErr := grantOpt c.stderrCfg n2 })

/-- `Child::wait`: the oracle's wait outcome for this pid. -/
def osWait (w : World) (c : Child) : WaitResult := w.waitResult c.pid

/-- `Child::wait_with_output`: wait, then read the child's stdout / stderr
pipes (if the child still holds them) to the end.  A stream whose endpoint
is absent contributes no bytes. -/
def wait_with_output (w : World) (c : Child) : Except IOErr Output :=
  match w.waitResult c.pid with
  | Except.error e => Except.error e
  | Except.ok s =>
      Except.ok { status := s,
                  stdout := match c.stdoutHandle with
                    | some _ => w.outBytes c.pid
                    | none => [],
                  stderr := match c.stderrHandle with
                    | some _ => w.errBytes c.pid
                    | none => [] }

/-- `struct CommandPipelineConfig`. -/
structure CommandPipelineConfig where
  pipefail : Bool
  on_drop : OnDrop
  stdin : Option StdioCfg
  stdout : Option StdioCfg
deriving DecidableEq, Repr

/-- `CommandPipelineConfig::new`. -/
def CommandPipelineConfig.new : CommandPipelineConfig :=
  { pipefail := false, on_drop := OnDrop.wait, stdin := none, stdout := none }

/-- `struct CommandPipeline`: the builder. -/
structure CommandPipeline where
  piped_commands : List Command
  tail_command : Command
  config : CommandPipelineConfig
deriving DecidableEq, Repr

/-- `CommandPipeline::new`. -/
def CommandPipeline.new (prog : Nat) : CommandPipeline :=
  { piped_commands := [], tail_command := Command.new prog,
    config := CommandPipelineConfig.new }

/-- `CommandPipeline::stdin`: stores the head-input source in the config. -/
def CommandPipeline.stdin (cp : CommandPipeline) (cfg : StdioCfg) :
    CommandPipeline :=
  { cp with config := { cp.config with stdin := some cfg } }

/-- `CommandPipeline::stdout`: stores the tail-output sink in the config. -/
def CommandPipeline.stdout (cp : CommandPipeline) (cfg : StdioCfg) :
    CommandPipeline :=
  { cp with config := { cp.config with stdout := some cfg } }

/-- `CommandPipeline::stderr`: sets stderr directly on the current tail
command. -/
def CommandPipeline.stderr (cp : CommandPipeline) (cfg : StdioCfg) :
    CommandPipeline :=
  { cp with tail_command := { cp.tail_command with stderrCfg := some cfg } }

/-- `CommandPipeline::on_drop`. -/
def CommandPipeline.on_drop (cp : CommandPipeline) (cfg : OnDrop) :
    CommandPipeline :=
  { cp with config := { cp.config with on_drop := cfg } }

/-- `CommandPipeline::pipe`: finalizes the current tail command into the
piped list and starts a fresh tail command. -/
def CommandPipeline.pipe (cp : CommandPipeline) (prog : Nat) :
    CommandPipeline :=
  { cp with piped_commands := cp.piped_commands ++ [cp.tail_command],
            tail_command := Command.new prog }

/-- `struct PipelineConfig`. -/
structure PipelineConfig where
  pipefail : Bool
  on_drop : OnDrop
deriving DecidableEq, Repr

/-- `struct Pipeline`: the running pipeline. -/
structure Pipeline where
  piped_processes : List Child
  tail_process : Option Child
  config : PipelineConfig
  stdin : Option Nat
  stdout : Option Nat
  stderr : Option Nat
deriving DecidableEq, Repr

/-- The outcome of the non-tail spawn loop: final allocation state, pending
stdout endpoint, children spawned so far (in order), spawn events, and the
first spawn error if any. -/
structure SpawnLoopResult where
  st : OsState
  last : Option Nat
  procs : List Child
  evs : List Event
  err : Option IOErr
deriving DecidableEq, Repr

/-- The command a non-tail stage is actually spawned with: its stdin bound
to the previous stage's stdout endpoint when one is pending (never on the
first iteration, where `last` is `none`), its stdout forced to a fresh
pipe. -/
def effectiveStage (c : Command) (last : Option Nat) : Command :=
  let c1 := match last with
    | some h => { c with stdinCfg := some (StdioCfg.fromHandle h) }
    | none => c
  { c1 with stdoutCfg := some StdioCfg.piped }

/-- The inner loop of `CommandPipeline::spawn` (`try_spawn_commands`): spawn
each non-tail command in order with its effective configuration.  On an
error the pending endpoint has already been consumed into the failing
command, hence `last := none`. -/
def spawnLoop (w : World) :
    OsState → Option Nat → List Command → SpawnLoopResult
  | st, last, [] =>
      { st := st, last := last, procs := [], evs := [], err := none }
  | st, last, c :: rest =>
      match osSpawn w st (effectiveStage c last) with
      | (st', Except.error e) =>
          { st := st', last := none, procs := [], evs := [], err := some e }
      | (st', Except.ok child) =>
          let r := spawnLoop w st' child.stdoutHandle rest
          { r with procs := child :: r.procs,
                   evs := Event.spawned child.pid :: r.evs }

/-- `post_error_wait_all`: wait on each already-spawned process, in order,
discarding the results. -/
def post_error_wait_all (processes : List Child) : List Event :=
  processes.map (fun p => Event.waited p.pid)

/-- Step 1 of `CommandPipeline::spawn`: take the configured head-input
source (if any) and bind it to the first piped command, or to the tail
command when there are no piped commands. -/
def bindHeadStdin (cp : CommandPipeline) : CommandPipeline :=
  match cp.config.stdin with
  | none => cp
  | some s =>
      let cp' := { cp with config := { cp.config with stdin := none } }
      match cp.piped_commands with
      | [] =>
          { cp' with tail_command :=
              { cp.tail_command with stdinCfg := some s } }
      | c :: rest =>
          { cp' with piped_commands :=
              { c with stdinCfg := some s } :: rest }

/-- The command the tail stage is actually spawned with: its stdin bound to
the last intermediate pipe endpoint when one is pending, and the configured
tail-output sink applied when one was set. -/
def effectiveTail (tc : Command) (last : Option Nat)
    (outCfg : Option StdioCfg) : Command :=
  let tail1 := match last with
    | some h => { tc with stdinCfg := some (StdioCfg.fromHandle h) }
    | none => tc
  match outCfg with
  | some s => { tail1 with stdoutCfg := some s }
  | none => tail1

/-- `CommandPipeline::spawn`: returns the final OS allocation state, the
trace of OS events performed, and either the running pipeline or the first
spawn error (after rolling back by waiting on every already-spawned
process). -/
def CommandPipeline.spawn (w : World) (st : OsState) (cp0 : CommandPipeline) :
    OsState × List Event × Except IOErr Pipeline :=
  let cp := bindHeadStdin cp0
  let r := spawnLoop w st none cp.piped_commands
  match r.err with
  | some e =>
      -- `drop(last_stdout)` releases nothing here: the pending endpoint was
      -- consumed by the failing command before its spawn attempt.
      (r.st, r.evs ++ post_error_wait_all r.procs, Except.error e)
  | none =>
      match osSpawn w r.st
          (effectiveTail cp.tail_command r.last cp.config.stdout) with
      | (st2, Except.error e) =>
          (st2, r.evs ++ post_error_wait_all r.procs, Except.error e)
      | (st2, Except.ok tail_process) =>
          match r.procs with
          | [] =>
              (st2, r.evs ++ [Event.spawned tail_process.pid],
               Except.ok
                 { piped_processes := [],
                   tail_process := some { tail_process with
                     stdinHandle := none, stdoutHandle := none,
                     stderrHandle := none },
                   config := { pipefail := cp.config.pipefail,
                               on_drop := cp.config.on_drop },
                   stdin := tail_process.stdinHandle,
                   stdout := tail_process.stdoutHandle,
                   stderr := tail_process.stderrHandle })
          | first :: others =>
              (st2, r.evs ++ [Event.spawned tail_process.pid],
               Except.ok
                 { piped_processes := { first with stdinHandle := none }
                     :: others,
                   tail_process := some { tail_process with
                     stdoutHandle := none, stderrHandle := none },
                   config := { pipefail := cp.config.pipefail,
                               on_drop := cp.config.on_drop },
                   stdin := first.stdinHandle,
                   stdout := tail_process.stdoutHandle,
                   stderr := tail_process.stderrHandle })

/-- Whether a wait result reported success:
`result.as_ref().is_ok_and(|s| s.success())`. -/
def waitReportedSuccess (r : WaitResult) : Bool :=
  match r with
  | Except.ok s => s.success
  | Except.error _ => false

/-- The `first_err_status` accumulation step shared by `Pipeline::join` and
`Pipeline::join_with_output`. -/
def firstErrStep (w : World) (pipefail : Bool)
    (acc : Option WaitResult) (c : Child) : Option WaitResult :=
  let result := osWait w c
  if pipefail && acc.isNone && !waitReportedSuccess result then
    some result
  else
    acc

/-- `Pipeline::join`: the event trace, the result, and the pipeline value as
it stands when `join` returns (its `Drop` then runs on that value). -/
def Pipeline.join (w : World) (p : Pipeline) :
    List Event × Except IOErr ExitStatus × Pipeline :=
  let first_err_status := p.piped_processes.foldl
    (firstErrStep w p.config.pipefail) none
  let pipedEvents := p.piped_processes.map (fun c => Event.waited c.pid)
  let tailPid := (p.tail_process.map Child.pid).getD 0
  let tail_status := w.waitResult tailPid
  let p' := { p with tail_process := none,
                     config := { p.config with on_drop := OnDrop.forget } }
  let res :=
    if p.config.pipefail then
      match first_err_status with
      | some err_status =>
          match err_status with
          | Except.error e => Except.error e
          | Except.ok s =>
              match tail_status with
              | Except.error e => Except.error e
              | Except.ok _ => Except.ok s
      | none => tail_status
    else tail_status
  (pipedEvents ++ [Event.waited tailPid], res, p')

/-- `Pipeline::join_with_output`: as `join`, but the tail is reaped with
`wait_with_output` after its stdout endpoint is put back from the exposed
`stdin`-style field, and under pipefail only the status field of the output
is overridden. -/
def Pipeline.join_with_output (w : World) (p : Pipeline) :
    List Event × Except IOErr Output × Pipeline :=
  let first_err_status := p.piped_processes.foldl
    (firstErrStep w p.config.pipefail) none
  let pipedEvents := p.piped_processes.map (fun c => Event.waited c.pid)
  let tailChild := (p.tail_process.getD
    { pid := 0, stdinHandle := none, stdoutHandle := none,
      stderrHandle := none, spawnedWith := Command.new 0,
      gIn := none, gOut := none, gErr := none })
  let tailChild' := { tailChild with stdoutHandle := p.stdout }
  let output := wait_with_output w tailChild'
  let p' := { p with tail_process := none, stdout := none,
                     config := { p.config with on_drop := OnDrop.forget } }
  let res :=
    if p.config.pipefail then
      match first_err_status with
      | some err_status =>
          match err_status with
          | Except.error e => Except.error e
          | Except.ok s =>
              match output with
              | Except.error e => Except.error e
              | Except.ok o => Except.ok { o with status := s }
      | none => output
    else output
  (pipedEvents ++ [Event.waited tailChild.pid], res, p')

/-- `impl Drop for Pipeline`: the events performed when the running pipeline
is released.  Under `kill`, each non-tail process is killed and then waited
on; the tail is waited on only when its kill request succeeded. -/
def Pipeline.dropEvents (w : World) (p : Pipeline) : List Event :=
  match p.config.on_drop with
  | OnDrop.forget => []
  | OnDrop.wait =>
      p.piped_processes.map (fun c => Event.waited c.pid) ++
      (match p.tail_process with
       | some t => [Event.waited t.pid]
       | none => [])
  | OnDrop.kill =>
      (p.piped_processes.flatMap
        (fun c => [Event.killed c.pid, Event.waited c.pid])) ++
      (match p.tail_process with
       | some t =>
           match w.killResult t.pid with
           | Except.ok _ => [Event.killed t.pid, Event.waited t.pid]
           | Except.error _ => [Event.killed t.pid]
       | none => [])

/-! ### Helper lemmas about the `first_err_status` fold -/

/-- Once `first_err_status` is set it is never replaced. -/
theorem foldl_firstErrStep_some (w : World) (pf : Bool) (a : WaitResult) :
    ∀ cs : List Child, cs.foldl (firstErrStep w pf) (some a) = some a := by
  intro cs
  induction cs with
  | nil => rfl
  | cons c cs ih => simpa [firstErrStep] using ih

/-- With pipefail enabled the fold computes the first wait result that did
not report success. -/
theorem foldl_firstErrStep_true (w : World) :
    ∀ cs : List Child,
      cs.foldl (firstErrStep w true) none =
        (cs.map (osWait w)).find? (fun r => !waitReportedSuccess r) := by
  intro cs
  induction cs with
  | nil => rfl
  | cons c cs ih =>
      rw [List.foldl_cons, List.map_cons, List.find?_cons]
      by_cases hs : waitReportedSuccess (osWait w c)
      · simpa [firstErrStep, hs] using ih
      · simp [firstErrStep, hs, foldl_firstErrStep_some]

/-- With pipefail disabled the fold never records anything. -/
theorem foldl_firstErrStep_false (w : World) :
    ∀ cs : List Child, cs.foldl (firstErrStep w false) none = none := by
  intro cs
  induction cs with
  | nil => rfl
  | cons c cs ih => simpa [firstErrStep] using ih

/-! ### Sample data used by the closed witness theorems -/

/-- A bare child with a given pid, as `join` receives it from `spawn`. -/
def sChild (pid : Nat) : Child :=
  { pid := pid, stdinHandle := none, stdoutHandle := none,
    stderrHandle := none, spawnedWith := Command.new pid,
    gIn := none, gOut := none, gErr := none }

/-- A world with a prescribed wait oracle and kill oracle; every program
spawns, every process writes `[97]` to a piped stdout and nothing to a
piped stderr. -/
def mkWorld (wait : Nat → WaitResult) (kill : Nat → Except IOErr Unit) :
    World :=
  { spawnErr := fun _ => none, waitResult := wait, killResult := kill,
    outBytes := fun _ => [97], errBytes := fun _ => [] }

/-- Wait oracle for a `false | true | true` run: the first process (pid 10)
exits with code 1, everything else with code 0. -/
def falseTrueTrueWait : Nat → WaitResult := fun pid =>
  if pid = 10 then Except.ok { code := 1 } else Except.ok { code := 0 }

/-- The sample world for the `false | true | true` scenarios. -/
def ftWorld : World := mkWorld falseTrueTrueWait (fun _ => Except.ok ())

/-- A running three-stage pipeline (pids 10, 11 non-tail; 12 tail). -/
def ftPipeline (pf : Bool) : Pipeline :=
  { piped_processes := [sChild 10, sChild 11],
    tail_process := some (sChild 12),
    config := { pipefail := pf, on_drop := OnDrop.wait },
    stdin := none, stdout := none, stderr := none }

/-! ### C1 -/

/-- C1: for a running pipeline all of whose waits report exit statuses,
`join` with pipefail enabled returns the status of the first non-tail
process (in spawn order) whose wait did not report success, falling back to
the tail process's status when every non-tail wait reported success; with
pipefail disabled it returns the tail process's status. -/
theorem join_pipefail_aggregation (w : World) (p : Pipeline) (t : Child)
    (statuses : List ExitStatus) (ts : ExitStatus)
    (htail : p.tail_process = some t)
    (hp : p.piped_processes.map (osWait w) = statuses.map Except.ok)
    (hts : w.waitResult t.pid = Except.ok ts) :
    (p.join w).2.1 =
      (if p.config.pipefail then
        Except.ok ((statuses.find? (fun s => !s.success)).getD ts)
      else
        Except.ok ts) := by
  unfold Pipeline.join
  rw [htail]
  cases hpf : p.config.pipefail with
  | false =>
      simp [foldl_firstErrStep_false, hpf, hts]
  | true =>
      have hfold : p.piped_processes.foldl (firstErrStep w true) none =
          (statuses.find? (fun s => !s.success)).map Except.ok := by
        rw [foldl_firstErrStep_true, hp, List.find?_map]
        congr 1
      cases hf : statuses.find? (fun s => !s.success) with
      | none => simp [hfold, hf, hpf, hts]
      | some s => simp [hfold, hf, hpf, hts]

/-- Witness for C1: stages `false | true | true` (statuses 1, 0 for the
non-tail stages, 0 for the tail).  With pipefail enabled the result is
stage 1's failing status; with pipefail disabled it is the tail's
successful status. -/
theorem join_pipefail_aggregation_witness :
    ((ftPipeline true).join ftWorld).2.1 = Except.ok { code := 1 }
    ∧ ((ftPipeline false).join ftWorld).2.1 = Except.ok { code := 0 } := by
  constructor
  · exact (join_pipefail_aggregation ftWorld (ftPipeline true) (sChild 12)
      [{ code := 1 }, { code := 0 }] { code := 0 } rfl (by decide)
      (by decide)).trans (by decide)
  · exact (join_pipefail_aggregation ftWorld (ftPipeline false) (sChild 12)
      [{ code := 1 }, { code := 0 }] { code := 0 } rfl (by decide)
      (by decide)).trans (by decide)

/-- Mapping an output to its status commutes with `wait_with_output`. -/
theorem wait_with_output_status (w : World) (c : Child) :
    (wait_with_output w c).map Output.status = w.waitResult c.pid := by
  cases h : w.waitResult c.pid <;> simp [wait_with_output, h, Except.map]

/-- Wait oracle where the wait on pid 10 raises an OS error (errno 4) and
every other wait reports a successful exit. -/
def errWait : Nat → WaitResult := fun pid =>
  if pid = 10 then Except.error { errno := 4 } else Except.ok { code := 0 }

/-- The sample world whose wait on pid 10 raises an OS error. -/
def errWorld : World := mkWorld errWait (fun _ => Except.ok ())

/-! ### C10 -/

/-- C10: with pipefail disabled, `join` returns exactly the tail process's
wait result and `join_with_output` returns exactly the tail process's
`wait_with_output` result; the wait results of the non-tail processes are
discarded entirely, whether they are failing statuses or OS wait errors. -/
theorem join_no_pipefail_tail_only (w : World) (p : Pipeline) (t : Child)
    (htail : p.tail_process = some t)
    (hpf : p.config.pipefail = false) :
    (p.join w).2.1 = w.waitResult t.pid
    ∧ (p.join_with_output w).2.1 =
        wait_with_output w { t with stdoutHandle := p.stdout } := by
  constructor
  · unfold Pipeline.join
    simp [hpf, htail]
  · unfold Pipeline.join_with_output
    simp [hpf, htail]

/-- Witness for C10: with pipefail disabled, a failing first stage (status
1) is ignored and both join flavors report the tail's success. -/
theorem join_no_pipefail_tail_only_witness :
    ((ftPipeline false).join ftWorld).2.1 = Except.ok { code := 0 }
    ∧ ((ftPipeline false).join_with_output ftWorld).2.1 =
        Except.ok { status := { code := 0 }, stdout := [], stderr := [] } := by
  have h := join_no_pipefail_tail_only ftWorld (ftPipeline false) (sChild 12)
    rfl rfl
  exact ⟨h.1.trans (by decide), h.2.trans (by decide)⟩

/-! ### C4 -/

/-- C4: with pipefail enabled, if the wait on the pipefail candidate raised
an OS error, `join` returns that error, and its event trace nevertheless
contains the wait on the tail process, after the waits on every non-tail
process. -/
theorem join_candidate_error_still_waits_tail (w : World) (p : Pipeline)
    (t : Child) (e : IOErr)
    (htail : p.tail_process = some t)
    (hpf : p.config.pipefail = true)
    (hfind : (p.piped_processes.map (osWait w)).find?
        (fun r => !waitReportedSuccess r) = some (Except.error e)) :
    (p.join w).2.1 = Except.error e
    ∧ (p.join w).1 =
        p.piped_processes.map (fun c => Event.waited c.pid)
          ++ [Event.waited t.pid] := by
  have hfold : p.piped_processes.foldl (firstErrStep w true) none =
      some (Except.error e) := by
    rw [foldl_firstErrStep_true, hfind]
  constructor
  · unfold Pipeline.join
    simp [hpf, hfold]
  · unfold Pipeline.join
    simp [htail]

/-- Witness for C4: the wait on non-tail pid 10 raises errno 4; `join`
returns that error and the trace still waits on tail pid 12. -/
theorem join_candidate_error_still_waits_tail_witness :
    ((ftPipeline true).join errWorld).2.1 = Except.error { errno := 4 }
    ∧ ((ftPipeline true).join errWorld).1 =
        [Event.waited 10, Event.waited 11, Event.waited 12] := by
  have h := join_candidate_error_still_waits_tail errWorld (ftPipeline true)
    (sChild 12) { errno := 4 } rfl rfl (by decide)
  exact ⟨h.1, h.2.trans (by decide)⟩

/-! ### C3 -/

/-- C3: `join` waits on each process exactly once (non-tail processes in
spawn order, then the tail), and the pipeline value it leaves behind
performs no wait or kill when released, whatever abandonment policy was
configured; likewise for `join_with_output`.  Hence over the whole
lifetime no process is waited on more than once. -/
theorem join_disables_abandonment (w : World) (p : Pipeline) (t : Child)
    (htail : p.tail_process = some t)
    (hnd : (p.piped_processes.map Child.pid ++ [t.pid]).Nodup) :
    (p.join w).1 =
      (p.piped_processes.map Child.pid ++ [t.pid]).map Event.waited
    ∧ ((p.join w).2.2).dropEvents w = []
    ∧ ((p.join_with_output w).2.2).dropEvents w = []
    ∧ ∀ q : Nat,
        ((p.join w).1 ++ ((p.join w).2.2).dropEvents w).count
          (Event.waited q) ≤ 1 := by
  have hinj : Function.Injective Event.waited := by
    intro a b hab
    injection hab
  have hevs : (p.join w).1 =
      (p.piped_processes.map Child.pid ++ [t.pid]).map Event.waited := by
    unfold Pipeline.join
    simp [htail, List.map_map]
  have hdrop : ((p.join w).2.2).dropEvents w = [] := by
    unfold Pipeline.join Pipeline.dropEvents
    simp
  have hdrop' : ((p.join_with_output w).2.2).dropEvents w = [] := by
    unfold Pipeline.join_with_output Pipeline.dropEvents
    simp
  refine ⟨hevs, hdrop, hdrop', ?_⟩
  intro q
  rw [hevs, hdrop, List.append_nil,
    List.count_map_of_injective _ Event.waited hinj]
  exact List.nodup_iff_count_le_one.1 hnd q

/-- A running pipeline configured with the kill abandonment policy. -/
def killPipeline : Pipeline :=
  { ftPipeline true with
      config := { pipefail := true, on_drop := OnDrop.kill } }

/-- Witness for C3: after joining a kill-policy pipeline, releasing it
performs no event at all, and each pid was waited on exactly once. -/
theorem join_disables_abandonment_witness :
    (killPipeline.join ftWorld).1 =
      [Event.waited 10, Event.waited 11, Event.waited 12]
    ∧ ((killPipeline.join ftWorld).2.2).dropEvents ftWorld = []
    ∧ ((killPipeline.join_with_output ftWorld).2.2).dropEvents ftWorld
        = [] := by
  have h := join_disables_abandonment ftWorld killPipeline (sChild 12) rfl
    (by decide)
  exact ⟨h.1.trans (by decide), h.2.1, h.2.2.1⟩

/-! ### C5 -/

/-- C5: `join_with_output` performs the same waits in the same order as
`join` and aggregates statuses by the same pipefail rule (the status of its
result always equals `join`'s result); when pipefail substitutes a non-tail
status `s` for the tail's, only the status field is overridden: the
captured stdout and stderr bytes are exactly those of the tail's own
captured output. -/
theorem join_with_output_frame (w : World) (p : Pipeline) (t : Child)
    (htail : p.tail_process = some t) :
    (p.join_with_output w).1 = (p.join w).1
    ∧ (p.join_with_output w).2.1.map Output.status = (p.join w).2.1
    ∧ (∀ s o, (p.piped_processes.map (osWait w)).find?
          (fun r => !waitReportedSuccess r) = some (Except.ok s) →
        wait_with_output w { t with stdoutHandle := p.stdout } =
          Except.ok o →
        p.config.pipefail = true →
        (p.join_with_output w).2.1 = Except.ok { o with status := s }) := by
  refine ⟨?_, ?_, ?_⟩
  · unfold Pipeline.join Pipeline.join_with_output
    simp [htail]
  · have hpid : ({ t with stdoutHandle := p.stdout } : Child).pid = t.pid :=
      rfl
    unfold Pipeline.join Pipeline.join_with_output
    cases hpf : p.config.pipefail with
    | false =>
        simpa [hpf, htail] using wait_with_output_status w
          { t with stdoutHandle := p.stdout }
    | true =>
        rw [foldl_firstErrStep_true]
        cases hf : (p.piped_processes.map (osWait w)).find?
            (fun r => !waitReportedSuccess r) with
        | none =>
            simpa [hpf, htail, hf] using wait_with_output_status w
              { t with stdoutHandle := p.stdout }
        | some r =>
            cases r with
            | error e => simp [hpf, htail, hf, Except.map]
            | ok s =>
                have hst := wait_with_output_status w
                  { t with stdoutHandle := p.stdout }
                cases hw : wait_with_output w
                    { t with stdoutHandle := p.stdout } with
                | error e =>
                    rw [hw] at hst
                    simp [Except.map] at hst
                    simp [hpf, htail, hf, hw, hpid, ← hst, Except.map]
                | ok o =>
                    rw [hw] at hst
                    simp [Except.map] at hst
                    simp [hpf, htail, hf, hw, hpid, ← hst, Except.map]
  · intro s o hfind hwwo hpf
    have hfold : p.piped_processes.foldl (firstErrStep w true) none =
        some (Except.ok s) := by
      rw [foldl_firstErrStep_true, hfind]
    unfold Pipeline.join_with_output
    simp [hpf, hfold, htail, hwwo]

/-- The three-stage pipefail pipeline with the tail's piped stdout endpoint
(handle 7) exposed, so that output collection captures bytes. -/
def ftPipelineOut : Pipeline := { ftPipeline true with stdout := some 7 }

/-- Witness for C5: with pipefail and a failing stage 1, the collected
output keeps the tail's captured bytes `[97]` and only the status is
replaced by stage 1's status 1. -/
theorem join_with_output_frame_witness :
    (ftPipelineOut.join_with_output ftWorld).1 =
      (ftPipelineOut.join ftWorld).1
    ∧ (ftPipelineOut.join_with_output ftWorld).2.1 =
        Except.ok { status := { code := 1 }, stdout := [97],
                    stderr := [] } := by
  have h := join_with_output_frame ftWorld ftPipelineOut (sChild 12) rfl
  refine ⟨h.1, ?_⟩
  have h3 := h.2.2 { code := 1 }
    { status := { code := 0 }, stdout := [97], stderr := [] }
    (by decide) (by decide) rfl
  exact h3.trans (by decide)

/-! ### C9 -/

/-- Modelled from the spec: the per-process kill behavior claim C9
describes — send a termination request, and wait for the process only when
that request succeeded.  The claim applies this to every process alike. -/
def killSpecPerProcess (w : World) (pid : Nat) : List Event :=
  Event.killed pid ::
    (match w.killResult pid with
     | Except.ok _ => [Event.waited pid]
     | Except.error _ => [])

/-- Modelled from the spec: the full event list claim C9 predicts for
releasing a kill-policy pipeline — non-tail stages in spawn order, then the
tail, each treated by `killSpecPerProcess`. -/
def killPolicyClaim (w : World) (p : Pipeline) : List Event :=
  p.piped_processes.flatMap (fun c => killSpecPerProcess w c.pid) ++
  (match p.tail_process with
   | some t => killSpecPerProcess w t.pid
   | none => [])

/-- The per-process kill behavior the code actually implements: a non-tail
process is waited on unconditionally after the kill attempt, while the tail
is waited on only when its kill request succeeded. -/
def killAmendedPerProcess (w : World) (isTail : Bool) (pid : Nat) :
    List Event :=
  Event.killed pid ::
    (if isTail then
      match w.killResult pid with
      | Except.ok _ => [Event.waited pid]
      | Except.error _ => []
    else [Event.waited pid])

/-- The amended event list for releasing a kill-policy pipeline. -/
def killPolicyAmended (w : World) (p : Pipeline) : List Event :=
  p.piped_processes.flatMap (fun c => killAmendedPerProcess w false c.pid) ++
  (match p.tail_process with
   | some t => killAmendedPerProcess w true t.pid
   | none => [])

/-- A world in which the kill request on pid 10 fails (errno 1) and every
other kill request succeeds; every wait reports an exit status. -/
def killFailWorld : World :=
  mkWorld falseTrueTrueWait
    (fun pid => if pid = 10 then Except.error { errno := 1 }
                else Except.ok ())

/-- Counterexample to C9 as stated: when the kill request on non-tail
pid 10 fails, the code still waits on pid 10, so the emitted events are not
the ones the claim predicts (which omit that wait). -/
theorem drop_kill_claim_counterexample :
    killPipeline.dropEvents killFailWorld =
      [Event.killed 10, Event.waited 10, Event.killed 11, Event.waited 11,
       Event.killed 12, Event.waited 12]
    ∧ killPolicyClaim killFailWorld killPipeline =
      [Event.killed 10, Event.killed 11, Event.waited 11,
       Event.killed 12, Event.waited 12]
    ∧ killPipeline.dropEvents killFailWorld ≠
        killPolicyClaim killFailWorld killPipeline := by
  exact ⟨by decide, by decide, by decide⟩

/-- C9 (amended): releasing an unjoined kill-policy pipeline sends a
termination request to every process in order (non-tail stages in spawn
order, then the tail); every non-tail process is then waited on
regardless of whether its kill request succeeded, while the tail is waited
on exactly when its kill request succeeded; all errors are discarded (the
events carry no results). -/
theorem drop_kill_amended (w : World) (p : Pipeline)
    (hod : p.config.on_drop = OnDrop.kill) :
    p.dropEvents w = killPolicyAmended w p
    ∧ (∀ c ∈ p.piped_processes,
        Event.killed c.pid ∈ p.dropEvents w
        ∧ Event.waited c.pid ∈ p.dropEvents w)
    ∧ (∀ t, p.tail_process = some t →
        Event.killed t.pid ∈ p.dropEvents w) := by
  have heq : p.dropEvents w = killPolicyAmended w p := by
    unfold Pipeline.dropEvents killPolicyAmended killAmendedPerProcess
    rw [hod]
    cases p.tail_process with
    | none => simp
    | some t => cases hk : w.killResult t.pid <;> simp [hk]
  refine ⟨heq, ?_, ?_⟩
  · intro c hc
    rw [heq]
    unfold killPolicyAmended
    constructor
    · exact List.mem_append_left _
        (List.mem_flatMap.2 ⟨c, hc, by simp [killAmendedPerProcess]⟩)
    · exact List.mem_append_left _
        (List.mem_flatMap.2 ⟨c, hc, by simp [killAmendedPerProcess]⟩)
  · intro t ht
    rw [heq]
    unfold killPolicyAmended
    rw [ht]
    exact List.mem_append_right _ (by simp [killAmendedPerProcess])

/-- Witness for the amended C9: on a concrete pipeline where the kill of
pid 10 fails, the release events are exactly the amended prediction. -/
theorem drop_kill_amended_witness :
    killPipeline.dropEvents killFailWorld =
      killPolicyAmended killFailWorld killPipeline
    ∧ killPipeline.dropEvents killFailWorld =
      [Event.killed 10, Event.waited 10, Event.killed 11, Event.waited 11,
       Event.killed 12, Event.waited 12] := by
  have h := drop_kill_amended killFailWorld killPipeline rfl
  exact ⟨h.1, by decide⟩

/-! ### Helper lemmas about the spawner -/

theorem effectiveStage_prog (c : Command) (last : Option Nat) :
    (effectiveStage c last).prog = c.prog := by
  cases last <;> rfl

theorem effectiveStage_stdout (c : Command) (last : Option Nat) :
    (effectiveStage c last).stdoutCfg = some StdioCfg.piped := by
  cases last <;> rfl

theorem effectiveStage_stderr (c : Command) (last : Option Nat) :
    (effectiveStage c last).stderrCfg = c.stderrCfg := by
  cases last <;> rfl

theorem effectiveStage_none_stdin (c : Command) :
    (effectiveStage c none).stdinCfg = c.stdinCfg := rfl

theorem effectiveTail_prog (tc : Command) (last : Option Nat)
    (outCfg : Option StdioCfg) :
    (effectiveTail tc last outCfg).prog = tc.prog := by
  cases last <;> cases outCfg <;> rfl

theorem effectiveTail_stdout (tc : Command) (last : Option Nat)
    (s : StdioCfg) :
    (effectiveTail tc last (some s)).stdoutCfg = some s := by
  cases last <;> rfl

theorem effectiveTail_stderr (tc : Command) (last : Option Nat)
    (outCfg : Option StdioCfg) :
    (effectiveTail tc last outCfg).stderrCfg = tc.stderrCfg := by
  cases last <;> cases outCfg <;> rfl

theorem effectiveTail_none_stdin (tc : Command) (outCfg : Option StdioCfg) :
    (effectiveTail tc none outCfg).stdinCfg = tc.stdinCfg := by
  cases outCfg <;> rfl

/-- `bindHeadStdin` rebinds one stdin configuration; it never changes which
programs the pipeline runs. -/
theorem bindHeadStdin_progs (cp : CommandPipeline) :
    (bindHeadStdin cp).piped_commands.map Command.prog =
      cp.piped_commands.map Command.prog
    ∧ (bindHeadStdin cp).tail_command.prog = cp.tail_command.prog := by
  unfold bindHeadStdin
  cases hs : cp.config.stdin with
  | none => exact ⟨rfl, rfl⟩
  | some s =>
      cases hp : cp.piped_commands with
      | nil => simp [hp]
      | cons c rest => simp [hp]

/-- `bindHeadStdin` leaves the tail-output configuration alone. -/
theorem bindHeadStdin_stdout (cp : CommandPipeline) :
    (bindHeadStdin cp).config.stdout = cp.config.stdout := by
  unfold bindHeadStdin
  cases cp.config.stdin with
  | none => rfl
  | some s => cases cp.piped_commands <;> rfl

/-- When every listed program spawns, the loop succeeds: no error, children
with consecutive fresh pids in order, matching spawn events, and the pid
counter advanced by the number of stages. -/
theorem spawnLoop_ok_spec (w : World) :
    ∀ (cs : List Command),
      (∀ q ∈ cs.map Command.prog, w.spawnErr q = none) →
      ∀ (st : OsState) (last : Option Nat),
        (spawnLoop w st last cs).err = none
        ∧ (spawnLoop w st last cs).procs.map Child.pid =
            List.range' st.nextPid cs.length
        ∧ (spawnLoop w st last cs).evs =
            (List.range' st.nextPid cs.length).map Event.spawned
        ∧ (spawnLoop w st last cs).st.nextPid = st.nextPid + cs.length := by
  intro cs
  induction cs with
  | nil =>
      intro _ st last
      simp [spawnLoop]
  | cons c rest ih =>
      intro h st last
      have hc : w.spawnErr (effectiveStage c last).prog = none := by
        rw [effectiveStage_prog]
        exact h c.prog (by simp)
      have ihr := ih (fun q hq => h q (by simp [hq]))
        { nextPid := st.nextPid + 1,
          nextHandle := grantNext (effectiveStage c last).stderrCfg
            (grantNext (effectiveStage c last).stdoutCfg
              (grantNext (effectiveStage c last).stdinCfg st.nextHandle)) }
        (grantOpt (effectiveStage c last).stdoutCfg
          (grantNext (effectiveStage c last).stdinCfg st.nextHandle))
      obtain ⟨ih1, ih2, ih3, ih4⟩ := ihr
      rw [List.length_cons, List.range'_succ]
      refine ⟨?_, ?_, ?_, ?_⟩
      · simpa [spawnLoop, osSpawn, hc] using ih1
      · simpa [spawnLoop, osSpawn, hc] using ih2
      · simpa [spawnLoop, osSpawn, hc] using ih3
      · simp [spawnLoop, osSpawn, hc, ih4]
        omega

/-- When the programs before position `k` spawn and the one at `k` does
not, the loop stops there with that error, having spawned exactly the
first `k` stages. -/
theorem spawnLoop_err_spec (w : World) (e : IOErr) :
    ∀ (cs : List Command) (pres : List Nat) (bad : Nat) (posts : List Nat),
      cs.map Command.prog = pres ++ bad :: posts →
      (∀ q ∈ pres, w.spawnErr q = none) →
      w.spawnErr bad = some e →
      ∀ (st : OsState) (last : Option Nat),
        (spawnLoop w st last cs).err = some e
        ∧ (spawnLoop w st last cs).procs.map Child.pid =
            List.range' st.nextPid pres.length
        ∧ (spawnLoop w st last cs).evs =
            (List.range' st.nextPid pres.length).map Event.spawned := by
  intro cs
  induction cs with
  | nil =>
      intro pres bad posts hsplit
      simp at hsplit
  | cons c rest ih =>
      intro pres bad posts hsplit hpres hbad st last
      cases pres with
      | nil =>
          simp at hsplit
          obtain ⟨h1, _⟩ := hsplit
          have hc : w.spawnErr (effectiveStage c last).prog = some e := by
            rw [effectiveStage_prog, h1]
            exact hbad
          refine ⟨?_, ?_, ?_⟩ <;> simp [spawnLoop, osSpawn, hc]
      | cons q pres' =>
          simp at hsplit
          obtain ⟨h1, h2⟩ := hsplit
          have hc : w.spawnErr (effectiveStage c last).prog = none := by
            rw [effectiveStage_prog, h1]
            exact hpres q (by simp)
          have ihr := ih pres' bad posts h2
            (fun q' hq' => hpres q' (by simp [hq'])) hbad
            { nextPid := st.nextPid + 1,
              nextHandle := grantNext (effectiveStage c last).stderrCfg
                (grantNext (effectiveStage c last).stdoutCfg
                  (grantNext (effectiveStage c last).stdinCfg
                    st.nextHandle)) }
            (grantOpt (effectiveStage c last).stdoutCfg
              (grantNext (effectiveStage c last).stdinCfg st.nextHandle))
          obtain ⟨ih1, ih2, ih3⟩ := ihr
          rw [List.length_cons, List.range'_succ]
          refine ⟨?_, ?_, ?_⟩
          · simpa [spawnLoop, osSpawn, hc] using ih1
          · simpa [spawnLoop, osSpawn, hc] using ih2
          · simpa [spawnLoop, osSpawn, hc] using ih3

/-! ### C2 -/

/-- C2: if spawning fails at any stage — a non-tail stage (first conjunct)
or the tail (second conjunct) — `spawn` stops, waits on exactly the
already-spawned processes, in spawn order, and returns the spawn error
instead of a running pipeline.  The trace contains precisely the spawn
events of stages before the failing one followed by their waits. -/
theorem spawn_failure_rolls_back (w : World) (st : OsState)
    (cp : CommandPipeline) (e : IOErr) :
    (∀ (pres : List Nat) (bad : Nat) (posts : List Nat),
      cp.piped_commands.map Command.prog = pres ++ bad :: posts →
      (∀ q ∈ pres, w.spawnErr q = none) →
      w.spawnErr bad = some e →
      (cp.spawn w st).2.2 = Except.error e
      ∧ (cp.spawn w st).2.1 =
          (List.range' st.nextPid pres.length).map Event.spawned
            ++ (List.range' st.nextPid pres.length).map Event.waited)
    ∧ ((∀ q ∈ cp.piped_commands.map Command.prog, w.spawnErr q = none) →
      w.spawnErr cp.tail_command.prog = some e →
      (cp.spawn w st).2.2 = Except.error e
      ∧ (cp.spawn w st).2.1 =
          (List.range' st.nextPid cp.piped_commands.length).map
              Event.spawned
            ++ (List.range' st.nextPid cp.piped_commands.length).map
                Event.waited) := by
  have hwaits : ∀ (procs : List Child) (pids : List Nat),
      procs.map Child.pid = pids →
      post_error_wait_all procs = pids.map Event.waited := by
    intro procs pids hp
    rw [← hp, post_error_wait_all, List.map_map]
    rfl
  constructor
  · intro pres bad posts hsplit hpres hbad
    have hsplit' : (bindHeadStdin cp).piped_commands.map Command.prog =
        pres ++ bad :: posts := by
      rw [(bindHeadStdin_progs cp).1]
      exact hsplit
    obtain ⟨he, hpids, hevs⟩ := spawnLoop_err_spec w e
      (bindHeadStdin cp).piped_commands pres bad posts hsplit' hpres hbad
      st none
    have hw := hwaits _ _ hpids
    constructor
    · simp [CommandPipeline.spawn, he]
    · simp [CommandPipeline.spawn, he, hevs, hw]
  · intro hall htail
    have hall' : ∀ q ∈ (bindHeadStdin cp).piped_commands.map Command.prog,
        w.spawnErr q = none := by
      rw [(bindHeadStdin_progs cp).1]
      exact hall
    obtain ⟨he, hpids, hevs, _⟩ := spawnLoop_ok_spec w
      (bindHeadStdin cp).piped_commands hall' st none
    have hlen : (bindHeadStdin cp).piped_commands.length =
        cp.piped_commands.length := by
      have := congrArg List.length (bindHeadStdin_progs cp).1
      simpa using this
    have hterr : w.spawnErr (effectiveTail (bindHeadStdin cp).tail_command
        (spawnLoop w st none (bindHeadStdin cp).piped_commands).last
        (bindHeadStdin cp).config.stdout).prog = some e := by
      rw [effectiveTail_prog, (bindHeadStdin_progs cp).2]
      exact htail
    have hw := hwaits _ _ hpids
    rw [hlen] at hevs hw
    constructor
    · simp [CommandPipeline.spawn, he, osSpawn, hterr]
    · simp [CommandPipeline.spawn, he, osSpawn, hterr, hevs, hw]

/-- A world in which program 7 fails to spawn (errno 13) and everything
else spawns; all waits report success. -/
def spawnFailWorld : World :=
  { spawnErr := fun q => if q = 7 then some { errno := 13 } else none,
    waitResult := fun _ => Except.ok { code := 0 },
    killResult := fun _ => Except.ok (),
    outBytes := fun _ => [97], errBytes := fun _ => [] }

/-- Witness for C2: in `prog0 | prog7 | prog2` the second stage fails to
spawn, so stage 1 (pid 0) is spawned then reaped and the error is
returned; in `prog0 | prog1 | prog7` the tail fails to spawn, so both
non-tail stages are spawned then reaped. -/
theorem spawn_failure_rolls_back_witness :
    ((((CommandPipeline.new 0).pipe 7).pipe 2).spawn spawnFailWorld
        { nextPid := 0, nextHandle := 0 }).2.2 =
      Except.error { errno := 13 }
    ∧ ((((CommandPipeline.new 0).pipe 7).pipe 2).spawn spawnFailWorld
        { nextPid := 0, nextHandle := 0 }).2.1 =
      [Event.spawned 0, Event.waited 0]
    ∧ ((((CommandPipeline.new 0).pipe 1).pipe 7).spawn spawnFailWorld
        { nextPid := 0, nextHandle := 0 }).2.1 =
      [Event.spawned 0, Event.spawned 1, Event.waited 0,
       Event.waited 1] := by
  have h1 := (spawn_failure_rolls_back spawnFailWorld
    { nextPid := 0, nextHandle := 0 }
    (((CommandPipeline.new 0).pipe 7).pipe 2) { errno := 13 }).1
    [0] 7 [] (by decide) (by decide) (by decide)
  have h2 := (spawn_failure_rolls_back spawnFailWorld
    { nextPid := 0, nextHandle := 0 }
    (((CommandPipeline.new 0).pipe 1).pipe 7) { errno := 13 }).2
    (by decide) (by decide)
  exact ⟨h1.1, h1.2.trans (by decide), h2.2.trans (by decide)⟩

/-- A child returned by `osSpawn` carries its spawn command, and its ghost
stream fields coincide with the granted (takeable) endpoints. -/
theorem osSpawn_ghost (w : World) (st : OsState) (c : Command) (ch : Child)
    (h : (osSpawn w st c).2 = Except.ok ch) :
    ch.spawnedWith = c
    ∧ ch.gIn = ch.stdinHandle
    ∧ ch.gOut = ch.stdoutHandle
    ∧ ch.gErr = ch.stderrHandle := by
  unfold osSpawn at h
  cases hs : w.spawnErr c.prog <;> rw [hs] at h <;> simp at h
  obtain ⟨rfl⟩ := h.symm
  exact ⟨rfl, rfl, rfl, rfl⟩

/-- If the loop did not fail on a nonempty list, its first child was
spawned with the head command's effective configuration. -/
theorem spawnLoop_cons_ok_head (w : World) (st : OsState) (last : Option Nat)
    (c : Command) (rest : List Command)
    (herr : (spawnLoop w st last (c :: rest)).err = none) :
    (spawnLoop w st last (c :: rest)).procs.head?.map Child.spawnedWith =
      some (effectiveStage c last) := by
  cases hs : w.spawnErr (effectiveStage c last).prog with
  | some e => simp [spawnLoop, osSpawn, hs] at herr
  | none => simp [spawnLoop, osSpawn, hs]

/-- Every child the loop spawns has its stdout forced to a pipe, and its
ghost stream fields coincide with the granted endpoints. -/
theorem spawnLoop_procs_props (w : World) :
    ∀ (cs : List Command) (st : OsState) (last : Option Nat),
      ∀ ch ∈ (spawnLoop w st last cs).procs,
        ch.spawnedWith.stdoutCfg = some StdioCfg.piped
        ∧ ch.gIn = ch.stdinHandle
        ∧ ch.gOut = ch.stdoutHandle
        ∧ ch.gErr = ch.stderrHandle := by
  intro cs
  induction cs with
  | nil =>
      intro st last ch hch
      simp [spawnLoop] at hch
  | cons c rest ih =>
      intro st last ch hch
      cases hs : w.spawnErr (effectiveStage c last).prog with
      | some e => simp [spawnLoop, osSpawn, hs] at hch
      | none =>
          simp [spawnLoop, osSpawn, hs] at hch
          cases hch with
          | inl h =>
              subst h
              refine ⟨?_, rfl, rfl, rfl⟩
              exact effectiveStage_stdout c last
          | inr h => exact ih _ _ ch h

/-- Characterization of a successful `spawn` in terms of the loop result
and the tail child: identifies the tail `osSpawn` call, the stored
processes, and the exposed streams. -/
theorem spawn_ok_shape (w : World) (st : OsState) (cp : CommandPipeline)
    (st' : OsState) (evs : List Event) (pl : Pipeline)
    (hspawn : cp.spawn w st = (st', evs, Except.ok pl)) :
    ∃ tp : Child,
      (osSpawn w (spawnLoop w st none (bindHeadStdin cp).piped_commands).st
          (effectiveTail (bindHeadStdin cp).tail_command
            (spawnLoop w st none (bindHeadStdin cp).piped_commands).last
            (bindHeadStdin cp).config.stdout)).2 = Except.ok tp
      ∧ (spawnLoop w st none (bindHeadStdin cp).piped_commands).err = none
      ∧ pl.stdout = tp.stdoutHandle
      ∧ pl.stderr = tp.stderrHandle
      ∧ (∃ t, pl.tail_process = some t
          ∧ t.spawnedWith = tp.spawnedWith
          ∧ t.gIn = tp.gIn ∧ t.gOut = tp.gOut ∧ t.gErr = tp.gErr)
      ∧ (((spawnLoop w st none (bindHeadStdin cp).piped_commands).procs = []
            ∧ pl.piped_processes = []
            ∧ pl.stdin = tp.stdinHandle)
         ∨ (∃ first others,
              (spawnLoop w st none (bindHeadStdin cp).piped_commands).procs
                = first :: others
              ∧ pl.piped_processes =
                  { first with stdinHandle := none } :: others
              ∧ pl.stdin = first.stdinHandle)) := by
  simp only [CommandPipeline.spawn] at hspawn
  cases herr : (spawnLoop w st none (bindHeadStdin cp).piped_commands).err
      with
  | some e =>
      rw [herr] at hspawn
      simp at hspawn
  | none =>
      rw [herr] at hspawn
      rcases hos : osSpawn w
          (spawnLoop w st none (bindHeadStdin cp).piped_commands).st
          (effectiveTail (bindHeadStdin cp).tail_command
            (spawnLoop w st none (bindHeadStdin cp).piped_commands).last
            (bindHeadStdin cp).config.stdout) with ⟨st2, res⟩
      rw [hos] at hspawn
      cases res with
      | error e => simp at hspawn
      | ok tp =>
          refine ⟨tp, rfl, rfl, ?_⟩
          cases hpp : (spawnLoop w st none
              (bindHeadStdin cp).piped_commands).procs with
          | nil =>
              rw [hpp] at hspawn
              simp only [Prod.mk.injEq, Except.ok.injEq] at hspawn
              obtain ⟨-, -, hpl⟩ := hspawn
              subst hpl
              exact ⟨rfl, rfl, ⟨_, rfl, rfl, rfl, rfl, rfl⟩,
                Or.inl ⟨rfl, rfl, rfl⟩⟩
          | cons first others =>
              rw [hpp] at hspawn
              simp only [Prod.mk.injEq, Except.ok.injEq] at hspawn
              obtain ⟨-, -, hpl⟩ := hspawn
              subst hpl
              exact ⟨rfl, rfl, ⟨_, rfl, rfl, rfl, rfl, rfl⟩,
                Or.inr ⟨first, others, rfl, rfl, rfl⟩⟩

/-- `bindHeadStdin` leaves the tail command's stderr alone. -/
theorem bindHeadStdin_tail_stderr (cp : CommandPipeline) :
    (bindHeadStdin cp).tail_command.stderrCfg =
      cp.tail_command.stderrCfg := by
  unfold bindHeadStdin
  cases cp.config.stdin with
  | none => rfl
  | some s => cases cp.piped_commands <;> rfl

/-! ### C6 -/

/-- C6: when a head-input source is configured, `spawn` binds it to the
standard input of the first stage in spawn order — the first non-tail
stage's spawned configuration when at least one `pipe()` call was made,
otherwise the tail's — and the wiring loop leaves that binding in place. -/
theorem spawn_binds_head_stdin (w : World) (st : OsState)
    (cp : CommandPipeline) (s : StdioCfg) (st' : OsState)
    (evs : List Event) (pl : Pipeline)
    (hstdin : cp.config.stdin = some s)
    (hspawn : cp.spawn w st = (st', evs, Except.ok pl)) :
    (cp.piped_commands = [] →
      ∃ t, pl.tail_process = some t ∧ t.spawnedWith.stdinCfg = some s)
    ∧ (∀ c0 rest, cp.piped_commands = c0 :: rest →
      ∃ c cs, pl.piped_processes = c :: cs
        ∧ c.spawnedWith.stdinCfg = some s) := by
  obtain ⟨tp, hos, herr, -, -, ⟨t, htail, hsw, -, -, -⟩, hsplit⟩ :=
    spawn_ok_shape w st cp st' evs pl hspawn
  constructor
  · intro hpc
    have hb1 : (bindHeadStdin cp).piped_commands = [] := by
      have h := (bindHeadStdin_progs cp).1
      rw [hpc] at h
      simpa using h
    have hb2 : (bindHeadStdin cp).tail_command.stdinCfg = some s := by
      simp [bindHeadStdin, hstdin, hpc]
    rw [hb1] at hos
    simp only [spawnLoop] at hos
    have hghost := osSpawn_ghost _ _ _ _ hos
    refine ⟨t, htail, ?_⟩
    rw [hsw, hghost.1, effectiveTail_none_stdin, hb2]
  · intro c0 rest hpc
    have hb1 : (bindHeadStdin cp).piped_commands =
        { c0 with stdinCfg := some s } :: rest := by
      simp [bindHeadStdin, hstdin, hpc]
    rw [hb1] at herr hsplit
    have hhead := spawnLoop_cons_ok_head w st none
      { c0 with stdinCfg := some s } rest herr
    cases hsplit with
    | inl h =>
        obtain ⟨hl, -, -⟩ := h
        rw [hl] at hhead
        simp at hhead
    | inr h =>
        obtain ⟨first, others, hl, hpp, -⟩ := h
        rw [hl] at hhead
        simp only [List.head?_cons, Option.map_some'] at hhead
        injection hhead with hhead
        refine ⟨{ first with stdinHandle := none }, others, hpp, ?_⟩
        show first.spawnedWith.stdinCfg = some s
        rw [hhead, effectiveStage_none_stdin]

/-- The OS allocation state the sample spawns start from. -/
def st0 : OsState := { nextPid := 0, nextHandle := 0 }

/-- Builder `prog0 | prog1` with a piped head-input source. -/
def cpA : CommandPipeline :=
  ((CommandPipeline.new 0).stdin StdioCfg.piped).pipe 1

/-- The first (non-tail) child of `cpA` as stored in the pipeline. -/
def chA0 : Child :=
  { pid := 0, stdinHandle := none, stdoutHandle := some 1,
    stderrHandle := none,
    spawnedWith := { prog := 0, stdinCfg := some StdioCfg.piped,
                     stdoutCfg := some StdioCfg.piped, stderrCfg := none },
    gIn := some 0, gOut := some 1, gErr := none }

/-- The tail child of `cpA`. -/
def tA : Child :=
  { pid := 1, stdinHandle := none, stdoutHandle := none,
    stderrHandle := none,
    spawnedWith := { prog := 1,
                     stdinCfg := some (StdioCfg.fromHandle 1),
                     stdoutCfg := none, stderrCfg := none },
    gIn := none, gOut := none, gErr := none }

/-- The running pipeline `cpA` spawns in `spawnFailWorld` from `st0`. -/
def plA : Pipeline :=
  { piped_processes := [chA0], tail_process := some tA,
    config := { pipefail := false, on_drop := OnDrop.wait },
    stdin := some 0, stdout := none, stderr := none }

/-- Single-stage builder with piped stdin, stdout and stderr. -/
def cpB : CommandPipeline :=
  (((CommandPipeline.new 0).stdin StdioCfg.piped).stdout
      StdioCfg.piped).stderr StdioCfg.piped

/-- The one child of `cpB` as stored in the pipeline. -/
def tB : Child :=
  { pid := 0, stdinHandle := none, stdoutHandle := none,
    stderrHandle := none,
    spawnedWith := { prog := 0, stdinCfg := some StdioCfg.piped,
                     stdoutCfg := some StdioCfg.piped,
                     stderrCfg := some StdioCfg.piped },
    gIn := some 0, gOut := some 1, gErr := some 2 }

/-- The running pipeline `cpB` spawns in `spawnFailWorld` from `st0`. -/
def plB : Pipeline :=
  { piped_processes := [], tail_process := some tB,
    config := { pipefail := false, on_drop := OnDrop.wait },
    stdin := some 0, stdout := some 1, stderr := some 2 }

/-- Witness for C6: in `prog0 | prog1` the first non-tail stage was spawned
with the configured piped stdin; in the single-stage builder the tail
itself was. -/
theorem spawn_binds_head_stdin_witness :
    plA.piped_processes.head?.map (fun c => c.spawnedWith.stdinCfg) =
      some (some StdioCfg.piped)
    ∧ plB.tail_process.map (fun t => t.spawnedWith.stdinCfg) =
      some (some StdioCfg.piped) := by
  constructor
  · obtain ⟨c, cs, hl, hc⟩ := (spawn_binds_head_stdin spawnFailWorld st0
      cpA StdioCfg.piped { nextPid := 2, nextHandle := 2 }
      [Event.spawned 0, Event.spawned 1] plA rfl (by decide)).2
      (Command.new 0) [] (by decide)
    rw [hl]
    simp [hc]
  · obtain ⟨t, ht, hc⟩ := (spawn_binds_head_stdin spawnFailWorld st0
      cpB StdioCfg.piped { nextPid := 1, nextHandle := 3 }
      [Event.spawned 0] plB rfl (by decide)).1 (by decide)
    rw [ht]
    simp [hc]

/-! ### C7 -/

/-- C7: a successful spawn exposes as the pipeline's stdin the stdin
endpoint the OS granted to the first spawned process (the first non-tail
process when one exists, else the tail), and as stdout/stderr the tail
process's granted endpoints; in particular a single-stage pipeline exposes
exactly that one process's streams. -/
theorem spawn_exposed_streams (w : World) (st : OsState)
    (cp : CommandPipeline) (st' : OsState) (evs : List Event) (pl : Pipeline)
    (hspawn : cp.spawn w st = (st', evs, Except.ok pl)) :
    ∃ t, pl.tail_process = some t
      ∧ pl.stdout = t.gOut
      ∧ pl.stderr = t.gErr
      ∧ (pl.piped_processes = [] → pl.stdin = t.gIn)
      ∧ (∀ c cs, pl.piped_processes = c :: cs → pl.stdin = c.gIn)
      ∧ (cp.piped_commands = [] → pl.piped_processes = []) := by
  obtain ⟨tp, hos, herr, hout, herr2, ⟨t, htail, hsw, hgi, hgo, hge⟩,
    hsplit⟩ := spawn_ok_shape w st cp st' evs pl hspawn
  have hghost := osSpawn_ghost _ _ _ _ hos
  refine ⟨t, htail, ?_, ?_, ?_, ?_, ?_⟩
  · rw [hout, hgo, hghost.2.2.1]
  · rw [herr2, hge, hghost.2.2.2]
  · intro hpp
    cases hsplit with
    | inl h => rw [h.2.2, hgi, hghost.2.1]
    | inr h =>
        obtain ⟨first, others, -, hpp', -⟩ := h
        rw [hpp] at hpp'
        simp at hpp'
  · intro c cs hpp
    cases hsplit with
    | inl h =>
        rw [h.2.1] at hpp
        simp at hpp
    | inr h =>
        obtain ⟨first, others, hl, hpp', hstdin'⟩ := h
        rw [hpp] at hpp'
        injection hpp'.symm with h1 h2
        have hfirst := (spawnLoop_procs_props w _ st none first
          (by rw [hl]; exact List.mem_cons_self _ _)).2.1
        rw [hstdin', ← h1]
        show first.stdinHandle = ({ first with stdinHandle := none } :
          Child).gIn
        rw [← hfirst]
  · intro hpc
    have hb1 : (bindHeadStdin cp).piped_commands = [] := by
      have h := (bindHeadStdin_progs cp).1
      rw [hpc] at h
      simpa using h
    cases hsplit with
    | inl h => exact h.2.1
    | inr h =>
        obtain ⟨first, others, hl, -, -⟩ := h
        rw [hb1] at hl
        simp [spawnLoop] at hl

/-- Witness for C7: the single-stage pipeline `plB` exposes exactly its one
process's granted streams (handles 0, 1, 2), and the two-stage pipeline
`plA` exposes the first non-tail process's stdin. -/
theorem spawn_exposed_streams_witness :
    plB.tail_process.map (fun t => (t.gIn, t.gOut, t.gErr)) =
      some (plB.stdin, plB.stdout, plB.stderr)
    ∧ plB.stdin = some 0 ∧ plB.stdout = some 1 ∧ plB.stderr = some 2
    ∧ plA.stdin = some 0
    ∧ plA.piped_processes.head?.map Child.gIn = some (some 0) := by
  obtain ⟨t, ht, ho, he, hi, -, -⟩ := spawn_exposed_streams spawnFailWorld
    st0 cpB { nextPid := 1, nextHandle := 3 } [Event.spawned 0] plB
    (by decide)
  obtain ⟨t', -, -, -, -, hcons, -⟩ := spawn_exposed_streams spawnFailWorld
    st0 cpA { nextPid := 2, nextHandle := 2 }
    [Event.spawned 0, Event.spawned 1] plA (by decide)
  have hst : plB.stdin = t.gIn := hi rfl
  have hA : plA.stdin = chA0.gIn := hcons chA0 [] rfl
  refine ⟨?_, ?_, ?_, ?_, ?_, ?_⟩
  · rw [ht]
    simp only [Option.map_some', Option.some.injEq]
    rw [← hst, ← ho, ← he]
  · decide
  · decide
  · decide
  · rw [hA]
    decide
  · decide

/-! ### C8 -/

/-- Counterexample to C8 as stated: setting the stderr sink and then
calling `pipe` leaves the sink on the stage that becomes non-tail — after
spawning, the non-tail process carries the configured stderr sink (handle
99) while the tail process's stderr is unconfigured.  So a stderr sink set
via the builder does not take effect on the final tail stage only. -/
theorem builder_stderr_not_tail_only_counterexample :
    ((((CommandPipeline.new 0).stderr (StdioCfg.fromHandle 99)).pipe
        1).spawn spawnFailWorld st0).2.2.map
      (fun pl =>
        (pl.piped_processes.map (fun c => c.spawnedWith.stderrCfg),
         pl.tail_process.map (fun t => t.spawnedWith.stderrCfg))) =
      Except.ok ([some (StdioCfg.fromHandle 99)], some none) := by
  decide

/-- C8 (amended): the stdout sink set via the builder is stored in the
pipeline configuration, takes effect on the final tail stage, and every
non-tail stage's stdout is forced by the spawner to a fresh internal pipe
regardless of earlier settings; the stderr sink, however, is set directly
on the stage under construction at the time of the call — it stays with
that stage when a later `pipe()` turns it into a non-tail stage, and the
spawner forwards each stage's stderr setting unchanged (shown here for the
tail). -/
theorem builder_sink_configuration (w : World) (st : OsState)
    (cp : CommandPipeline) (s x : StdioCfg) (q : Nat) (st' : OsState)
    (evs : List Event) (pl : Pipeline) :
    (cp.spawn w st = (st', evs, Except.ok pl) →
      ∀ c ∈ pl.piped_processes,
        c.spawnedWith.stdoutCfg = some StdioCfg.piped)
    ∧ (cp.spawn w st = (st', evs, Except.ok pl) →
      cp.config.stdout = some s →
      ∃ t, pl.tail_process = some t
        ∧ t.spawnedWith.stdoutCfg = some s)
    ∧ (cp.spawn w st = (st', evs, Except.ok pl) →
      ∃ t, pl.tail_process = some t
        ∧ t.spawnedWith.stderrCfg = cp.tail_command.stderrCfg)
    ∧ (cp.stdout s).config.stdout = some s
    ∧ (cp.stderr x).tail_command.stderrCfg = some x
    ∧ ((cp.stderr x).pipe q).piped_commands =
        cp.piped_commands ++ [{ cp.tail_command with stderrCfg := some x }]
    ∧ ((cp.stderr x).pipe q).tail_command = Command.new q := by
  refine ⟨?_, ?_, ?_, rfl, rfl, rfl, rfl⟩
  · intro hspawn c hc
    obtain ⟨tp, hos, herr, -, -, -, hsplit⟩ :=
      spawn_ok_shape w st cp st' evs pl hspawn
    cases hsplit with
    | inl h =>
        rw [h.2.1] at hc
        simp at hc
    | inr h =>
        obtain ⟨first, others, hl, hpp, -⟩ := h
        rw [hpp] at hc
        rcases List.mem_cons.mp hc with hc1 | hc2
        · subst hc1
          show first.spawnedWith.stdoutCfg = some StdioCfg.piped
          exact (spawnLoop_procs_props w _ st none first
            (by rw [hl]; exact List.mem_cons_self _ _)).1
        · exact (spawnLoop_procs_props w _ st none c
            (by rw [hl]; exact List.mem_cons_of_mem _ hc2)).1
  · intro hspawn hcfg
    obtain ⟨tp, hos, -, -, -, ⟨t, htail, hsw, -, -, -⟩, -⟩ :=
      spawn_ok_shape w st cp st' evs pl hspawn
    have hghost := osSpawn_ghost _ _ _ _ hos
    refine ⟨t, htail, ?_⟩
    rw [hsw, hghost.1,
      show (bindHeadStdin cp).config.stdout = some s from
        (bindHeadStdin_stdout cp).trans hcfg]
    exact effectiveTail_stdout _ _ _
  · intro hspawn
    obtain ⟨tp, hos, -, -, -, ⟨t, htail, hsw, -, -, -⟩, -⟩ :=
      spawn_ok_shape w st cp st' evs pl hspawn
    have hghost := osSpawn_ghost _ _ _ _ hos
    refine ⟨t, htail, ?_⟩
    rw [hsw, hghost.1, effectiveTail_stderr, bindHeadStdin_tail_stderr]

/-- Builder `prog0 | prog1` with a null tail-output sink. -/
def cpC : CommandPipeline :=
  ((CommandPipeline.new 0).pipe 1).stdout StdioCfg.null

/-- The first (non-tail) child of `cpC` as stored in the pipeline. -/
def chC0 : Child :=
  { pid := 0, stdinHandle := none, stdoutHandle := some 0,
    stderrHandle := none,
    spawnedWith := { prog := 0, stdinCfg := none,
                     stdoutCfg := some StdioCfg.piped, stderrCfg := none },
    gIn := none, gOut := some 0, gErr := none }

/-- The tail child of `cpC`. -/
def tC : Child :=
  { pid := 1, stdinHandle := none, stdoutHandle := none,
    stderrHandle := none,
    spawnedWith := { prog := 1,
                     stdinCfg := some (StdioCfg.fromHandle 0),
                     stdoutCfg := some StdioCfg.null, stderrCfg := none },
    gIn := none, gOut := none, gErr := none }

/-- The running pipeline `cpC` spawns in `spawnFailWorld` from `st0`. -/
def plC : Pipeline :=
  { piped_processes := [chC0], tail_process := some tC,
    config := { pipefail := false, on_drop := OnDrop.wait },
    stdin := none, stdout := none, stderr := none }

/-- Witness for the amended C8: in `prog0 | prog1` with a null tail-output
sink, the non-tail stage was spawned with a piped stdout and the tail with
the configured null stdout. -/
theorem builder_sink_configuration_witness :
    plC.piped_processes.map (fun c => c.spawnedWith.stdoutCfg) =
      [some StdioCfg.piped]
    ∧ plC.tail_process.map (fun t => t.spawnedWith.stdoutCfg) =
      some (some StdioCfg.null) := by
  have h := builder_sink_configuration spawnFailWorld st0 cpC StdioCfg.null
    StdioCfg.null 0 { nextPid := 2, nextHandle := 1 }
    [Event.spawned 0, Event.spawned 1] plC
  constructor
  · have hx := h.1 (by decide) chC0 (by decide)
    show [chC0.spawnedWith.stdoutCfg] = [some StdioCfg.piped]
    rw [hx]
  · obtain ⟨t, ht, hs⟩ := h.2.1 (by decide) (by decide)
    rw [ht]
    simp [hs]

end SubprocessPipeline
